import Mathlib

/-!
Shallow embedding of `src/python_mini_project.py` (a library management
system backed by a single JSON document) and proofs about its data-store
and record-linking operations.

Modelling conventions:
* Python `int` is modelled by `Int` (arbitrary precision); identifier
  counters, which start at 1 and only ever increment, are modelled by `Nat`.
* Text fields are Lean `String`s; Python's `str.lower` is modelled by
  mapping `Char.toLower`, and the substring operator `in` by an explicit
  `containsSub` function on character lists.
* `datetime.today().replace(day = d)` is modelled by `Date.replaceDay`,
  which fails (returns `none`, Python `ValueError`) when `d` is not a
  valid day of the date's month, exactly as CPython validates it.
* Interactive `input()` parsing with `int(...)` is modelled by passing an
  `Option Int` argument: `none` means the text did not parse (Python
  raises `ValueError`), `some n` means it parsed to `n`.
* Each mutating operation is a function `Store → ... → result × Store`:
  the returned store is the in-memory `self.storage.data` after the call
  (file persistence performed by `save_data` is outside the store model).
-/

namespace LibrarySystem

/-- Calendar dates, for `datetime.today()` values. -/
structure Date where
  year : Nat
  month : Nat
  day : Nat
  deriving DecidableEq, Repr

/-- Gregorian leap-year rule, as used by Python's `datetime`. -/
def isLeapYear (y : Nat) : Bool :=
  (y % 4 == 0 && y % 100 != 0) || y % 400 == 0

/-- Number of days in a month, as validated by `datetime.replace`. -/
def daysInMonth (y m : Nat) : Nat :=
  if m == 2 then (if isLeapYear y then 29 else 28)
  else if m == 4 || m == 6 || m == 9 || m == 11 then 30
  else 31

/-- Model of `d.replace` with a new day: succeeds only when `newDay` is a valid day
of `d`'s month; otherwise Python raises `ValueError` (modelled `none`). -/
def Date.replaceDay (d : Date) (newDay : Nat) : Option Date :=
  if 1 ≤ newDay ∧ newDay ≤ daysInMonth d.year d.month then
    some { d with day := newDay }
  else
    none

/-- A record of the `books` collection (`add_book`, line 62). -/
structure Book where
  book_id : Nat
  title : String
  author : String
  genre : String
  copies : Int
  deriving DecidableEq, Repr

/-- A record of the `library_cards` collection (`issue_card`, line 122). -/
structure Card where
  card_no : Nat
  name : String
  branch : String
  subscription : Int
  issue_date : Date
  deriving DecidableEq, Repr

/-- A record of the `borrowers` collection (`issue_book`, line 181). -/
structure Borrower where
  borrower_id : Nat
  card_no : Nat
  name : String
  address : String
  phone : String
  book_id : Nat
  book_title : String
  issued_date : Date
  return_date : Date
  deriving DecidableEq, Repr

/-- The in-memory JSON document held by `FileStorage.data`. -/
structure Store where
  books : List Book
  library_cards : List Card
  borrowers : List Borrower
  next_book_id : Nat
  next_card_no : Nat
  next_borrower_id : Nat
  deriving DecidableEq, Repr

/-- The default data structure built by `load_data` (lines 21-28). -/
def defaultData : Store :=
  { books := []
    library_cards := []
    borrowers := []
    next_book_id := 1
    next_card_no := 1
    next_borrower_id := 1 }

/-- A value produced by a successful `json.load`: either an object with
the expected library-document shape, or any other JSON value (an array, a
number, an object with different keys, ...), kept opaque and identified
by its serialized text. `load_data` performs no schema validation, so the
second kind is returned to the caller as-is. -/
inductive JsonValue where
  | doc (d : Store)
  | other (raw : String)
  deriving DecidableEq, Repr

/-- Condition of the backing file when `load_data` runs: absent; present
but with bytes that are not decodable text (Python raises
`UnicodeDecodeError` while `json.load` reads the file); decodable text
that fails JSON parsing (`json.JSONDecodeError`); or text that parses to
the JSON value `j` — which may or may not be the expected document. -/
inductive FileState where
  | absent
  | undecodable
  | unparsable
  | parsed (j : JsonValue)

/-- Error that can escape `load_data`: `UnicodeDecodeError` is a
`ValueError` but not a `json.JSONDecodeError`, so it is not in the caught
tuple `(json.JSONDecodeError, FileNotFoundError)` at line 17 and
propagates to the caller (`FileStorage()` at line 297 is constructed
outside any `try`). -/
inductive LoadError where
  | unicodeDecodeError
  deriving DecidableEq, Repr

/-- Model of `FileStorage.load_data` (lines 11-28): an absent file skips
the `try` and yields the default structure; a file whose bytes are not
decodable text raises `UnicodeDecodeError` out of the function; decodable
text that fails JSON parsing is caught and yields the default structure;
and any successfully parsed JSON value — whether or not it has the
expected document shape — is returned verbatim, unvalidated. -/
def load_data : FileState → Except LoadError JsonValue
  | .absent => .ok (.doc defaultData)
  | .undecodable => .error .unicodeDecodeError
  | .unparsable => .ok (.doc defaultData)
  | .parsed j => .ok j

/-- Model of `FileStorage.get_next_id` (lines 40-44) acting on one counter:
returns the current value and the incremented counter. -/
def get_next_id (n : Nat) : Nat × Nat :=
  (n, n + 1)

/-- Errors surfaced by the operations: `valueError` is Python's
`ValueError` caught by the surrounding `except` clauses; the others are
the printed validation failures. -/
inductive OpError where
  | valueError
  | cardNotFound
  | bookNotFound
  | noCopiesAvailable
  | borrowerNotFound
  deriving DecidableEq, Repr

/-- Model of `LibrarySystem.find_book` (lines 94-99): first book with the id. -/
def find_book (books : List Book) (book_id : Nat) : Option Book :=
  books.find? (fun b => b.book_id == book_id)

/-- Model of `LibrarySystem.find_card` (lines 139-144): first card with the number. -/
def find_card (cards : List Card) (card_no : Nat) : Option Card :=
  cards.find? (fun c => c.card_no == card_no)

/-- The clamp in `update_book_copies` (lines 105-107):
`book["copies"] += change; if book["copies"] < 0: book["copies"] = 0`. -/
def clampCopies (c : Int) : Int :=
  if c < 0 then 0 else c

/-- In-place mutation of the book object returned by `find_book`: the
first book whose id matches gets `copies := clampCopies (copies + change)`;
all other records are untouched. -/
def updateFirstBook (books : List Book) (book_id : Nat) (change : Int) :
    List Book :=
  match books with
  | [] => []
  | b :: rest =>
    if b.book_id == book_id then
      { b with copies := clampCopies (b.copies + change) } :: rest
    else
      b :: updateFirstBook rest book_id change

/-- Model of `LibrarySystem.update_book_copies` (lines 101-110). -/
def update_book_copies (s : Store) (book_id : Nat) (change : Int) :
    Bool × Store :=
  match find_book s.books book_id with
  | some _ => (true, { s with books := updateFirstBook s.books book_id change })
  | none => (false, s)

/-- Model of `LibrarySystem.add_book` (lines 52-79): `copies` is the result of
`int(input(...))` — `none` when that raised `ValueError`, in which case
nothing is mutated (the parse happens before `get_next_id`). -/
def add_book (s : Store) (title author genre : String)
    (copies : Option Int) : Except OpError Nat × Store :=
  match copies with
  | none => (.error .valueError, s)
  | some c =>
    let (book_id, nid) := get_next_id s.next_book_id
    let new_book : Book :=
      { book_id := book_id, title := title, author := author,
        genre := genre, copies := c }
    (.ok book_id,
      { s with next_book_id := nid, books := s.books ++ [new_book] })

/-- Model of `LibrarySystem.issue_card` (lines 113-137): `subscription` is the
parsed `int(input(...))`, `none` on `ValueError` (parsed before any
mutation). -/
def issue_card (s : Store) (name branch : String)
    (subscription : Option Int) (today : Date) : Except OpError Nat × Store :=
  match subscription with
  | none => (.error .valueError, s)
  | some sub =>
    let (card_no, nid) := get_next_id s.next_card_no
    let new_card : Card :=
      { card_no := card_no, name := name, branch := branch,
        subscription := sub, issue_date := today }
    (.ok card_no,
      { s with next_card_no := nid,
               library_cards := s.library_cards ++ [new_card] })

/-- Model of `LibrarySystem.issue_book` (lines 147-205). The checks run in source
order: card, then book existence, then availability. On success the
return date is computed by `replace` with day `today.day + 14` (line 178); when
that raises `ValueError` the borrower-id counter has already been
incremented (line 174) but no record is appended and no copies change. -/
def issue_book (s : Store) (card_no : Nat) (name address phone : String)
    (book_id : Nat) (today : Date) : Except OpError (Nat × Date) × Store :=
  match find_card s.library_cards card_no with
  | none => (.error .cardNotFound, s)
  | some _ =>
    match find_book s.books book_id with
    | none => (.error .bookNotFound, s)
    | some book =>
      if book.copies ≤ 0 then
        (.error .noCopiesAvailable, s)
      else
        let (borrower_id, nid) := get_next_id s.next_borrower_id
        let s1 := { s with next_borrower_id := nid }
        match today.replaceDay (today.day + 14) with
        | none => (.error .valueError, s1)
        | some return_date =>
          let new_borrower : Borrower :=
            { borrower_id := borrower_id, card_no := card_no,
              name := name, address := address, phone := phone,
              book_id := book_id, book_title := book.title,
              issued_date := today, return_date := return_date }
          let s2 := { s1 with borrowers := s1.borrowers ++ [new_borrower] }
          let s3 := (update_book_copies s2 book_id (-1)).2
          (.ok (borrower_id, return_date), s3)

/-- Model of `LibrarySystem.return_book` (lines 208-239): finds the first borrower
record with the id, increments that record's book's copies, then removes
every borrower record with the id. -/
def return_book (s : Store) (borrower_id : Nat) :
    Except OpError String × Store :=
  match s.borrowers.find? (fun br => br.borrower_id == borrower_id) with
  | none => (.error .borrowerNotFound, s)
  | some borrower =>
    let s1 := (update_book_copies s borrower.book_id 1).2
    let s2 := { s1 with
      borrowers := s1.borrowers.filter (fun br => br.borrower_id != borrower_id) }
    (.ok borrower.book_title, s2)

/-- Lower-casing of Python's `str.lower()`, as a character list. -/
def lowerStr (s : String) : List Char :=
  s.data.map Char.toLower

/-- Python's `needle in hay` when `hay` starts with `needle`. -/
def startsWith (hay needle : List Char) : Bool :=
  match hay, needle with
  | _, [] => true
  | [], _ :: _ => false
  | h :: hs, n :: ns => h == n && startsWith hs ns

/-- Python's substring operator `needle in hay`. -/
def containsSub (hay needle : List Char) : Bool :=
  match hay with
  | [] => needle.isEmpty
  | _ :: t => startsWith hay needle || containsSub t needle

/-- The match condition of `search_books` (lines 262-264): the lowered
keyword occurs in the lowered title, author, or genre. -/
def bookMatches (keyword : String) (b : Book) : Bool :=
  containsSub (lowerStr b.title) (lowerStr keyword) ||
  containsSub (lowerStr b.author) (lowerStr keyword) ||
  containsSub (lowerStr b.genre) (lowerStr keyword)

/-- Model of `LibrarySystem.search_books` (lines 256-274): collects, in order, the
books matching the keyword. It only reads the store, so it is a pure
function of the books collection. -/
def search_books (keyword : String) (books : List Book) : List Book :=
  books.filter (bookMatches keyword)

/-- One invocation of a public mutating operation, with its inputs. -/
inductive Op where
  | addBook (title author genre : String) (copies : Option Int)
  | updateCopies (book_id : Nat) (change : Int)
  | issueCard (name branch : String) (subscription : Option Int) (today : Date)
  | issueBook (card_no : Nat) (name address phone : String)
      (book_id : Nat) (today : Date)
  | returnBook (borrower_id : Nat)

/-- The store left in memory after running one operation. -/
def applyOp (s : Store) : Op → Store
  | .addBook t a g c => (add_book s t a g c).2
  | .updateCopies bid ch => (update_book_copies s bid ch).2
  | .issueCard n b sub d => (issue_card s n b sub d).2
  | .issueBook cn n a p bid d => (issue_book s cn n a p bid d).2
  | .returnBook brid => (return_book s brid).2

/-- The store reached by a sequence of operations from the empty default
store (a fresh `load_data` fallback). -/
def runOps (ops : List Op) : Store :=
  ops.foldl applyOp defaultData

/-- An operation whose `add_book` copies input, when it parses at all,
parses to a non-negative integer. -/
def goodOp : Op → Bool
  | .addBook _ _ _ (some c) => decide (0 ≤ c)
  | _ => true

/-- Values returned by `k` successive `get_next_id` calls on a counter
currently holding `n`, together with the final counter. -/
def nextIdRun : Nat → Nat → List Nat × Nat
  | n, 0 => ([], n)
  | n, k + 1 =>
    ((get_next_id n).1 :: (nextIdRun (get_next_id n).2 k).1,
     (nextIdRun (get_next_id n).2 k).2)

/-- Book ids allocated by a sequence of `add_book` calls (failed parses
allocate nothing), together with the final store. -/
def addBooksRun (s : Store) :
    List (String × String × String × Option Int) → List Nat × Store
  | [] => ([], s)
  | (t, a, g, c) :: rest =>
    ((match (add_book s t a g c).1 with
      | .error _ => (addBooksRun (add_book s t a g c).2 rest).1
      | .ok bid => bid :: (addBooksRun (add_book s t a g c).2 rest).1),
     (addBooksRun (add_book s t a g c).2 rest).2)

/-- Specification-side predicate: `needle` occurs contiguously inside
`hay` (the meaning of "contains as a substring"). -/
def IsSubstring (needle hay : List Char) : Prop :=
  ∃ pre post, hay = pre ++ needle ++ post

/-- Specification-side reading of the `search_books` match condition: the
keyword is a substring of title, author, or genre under case-insensitive
comparison. -/
def MatchesKeyword (keyword : String) (b : Book) : Prop :=
  IsSubstring (lowerStr keyword) (lowerStr b.title) ∨
  IsSubstring (lowerStr keyword) (lowerStr b.author) ∨
  IsSubstring (lowerStr keyword) (lowerStr b.genre)

/-- A small concrete store used to instantiate theorems: one book with
two copies, one card, no outstanding borrowers. -/
def sampleStore : Store :=
  { books := [{ book_id := 1, title := "Dune", author := "Herbert",
                genre := "SciFi", copies := 2 }]
    library_cards := [{ card_no := 1, name := "Alice", branch := "Main",
                        subscription := 6, issue_date := ⟨2026, 1, 1⟩ }]
    borrowers := []
    next_book_id := 2
    next_card_no := 2
    next_borrower_id := 1 }

/-- Variant of `sampleStore` with the one book out of stock (zero copies). -/
def zeroCopiesStore : Store :=
  { books := [{ book_id := 1, title := "Dune", author := "Herbert",
                genre := "SciFi", copies := 0 }]
    library_cards := [{ card_no := 1, name := "Alice", branch := "Main",
                        subscription := 6, issue_date := ⟨2026, 1, 1⟩ }]
    borrowers := []
    next_book_id := 2
    next_card_no := 2
    next_borrower_id := 1 }

/-- A concrete store whose `next_borrower_id` counter collides with an
already-present borrower record (as can arise from a hand-edited or
foreign data file): borrower 1 holds book 2 while the counter is still 1. -/
def collidingStore : Store :=
  { books := [{ book_id := 1, title := "Dune", author := "Herbert",
                genre := "SciFi", copies := 2 },
              { book_id := 2, title := "Emma", author := "Austen",
                genre := "Classic", copies := 5 }]
    library_cards := [{ card_no := 1, name := "Alice", branch := "Main",
                        subscription := 6, issue_date := ⟨2026, 1, 1⟩ }]
    borrowers := [{ borrower_id := 1, card_no := 1, name := "Bob",
                    address := "Elm St", phone := "555", book_id := 2,
                    book_title := "Emma", issued_date := ⟨2026, 1, 1⟩,
                    return_date := ⟨2026, 1, 15⟩ }]
    next_book_id := 3
    next_card_no := 2
    next_borrower_id := 1 }

/-! ### Helper lemmas -/

theorem clampCopies_nonneg (c : Int) : 0 ≤ clampCopies c := by
  unfold clampCopies; split <;> omega

theorem clampCopies_of_nonneg {c : Int} (h : 0 ≤ c) : clampCopies c = c := by
  unfold clampCopies; split <;> omega

theorem book_id_set_copies (b : Book) (x : Int) :
    (Book.book_id { b with copies := x }) = b.book_id := rfl

theorem copies_set_copies (b : Book) (x : Int) :
    (Book.copies { b with copies := x }) = x := rfl

theorem set_copies_self (b : Book) : { b with copies := b.copies } = b := rfl

theorem find_book_cons (b : Book) (rest : List Book) (bid : Nat) :
    find_book (b :: rest) bid =
      if b.book_id == bid then some b else find_book rest bid := by
  cases hb : b.book_id == bid <;> simp [find_book, List.find?_cons, hb]

theorem find_book_updateFirstBook (books : List Book) (bid : Nat) (ch : Int) :
    find_book (updateFirstBook books bid ch) bid =
      (find_book books bid).map
        (fun b => { b with copies := clampCopies (b.copies + ch) }) := by
  induction books with
  | nil => rfl
  | cons b rest ih =>
    cases hb : b.book_id == bid
    · simp [updateFirstBook, hb, find_book_cons, ih]
    · simp [updateFirstBook, hb, find_book_cons, book_id_set_copies]

theorem updateFirstBook_nonneg {books : List Book} (bid : Nat) (ch : Int)
    (h : ∀ b ∈ books, 0 ≤ b.copies) :
    ∀ b ∈ updateFirstBook books bid ch, 0 ≤ b.copies := by
  induction books with
  | nil => simp [updateFirstBook]
  | cons b rest ih =>
    cases hb : b.book_id == bid
    · intro x hx
      simp only [updateFirstBook, hb] at hx
      rcases List.mem_cons.mp hx with h1 | h1
      · exact h1 ▸ h b (List.mem_cons_self b rest)
      · exact ih (fun y hy => h y (List.mem_cons_of_mem _ hy)) x h1
    · intro x hx
      simp only [updateFirstBook, hb, if_true] at hx
      rcases List.mem_cons.mp hx with h1 | h1
      · rw [h1, copies_set_copies]; exact clampCopies_nonneg _
      · exact h x (List.mem_cons_of_mem _ h1)

theorem updateFirstBook_roundtrip {books : List Book} {bid : Nat} {book : Book}
    (hf : find_book books bid = some book) (hc : 1 ≤ book.copies) :
    updateFirstBook (updateFirstBook books bid (-1)) bid 1 = books := by
  induction books with
  | nil => simp [find_book] at hf
  | cons b rest ih =>
    rw [find_book_cons] at hf
    cases hb : b.book_id == bid
    · rw [hb] at hf; simp at hf
      simp [updateFirstBook, hb, ih hf]
    · rw [hb] at hf; simp at hf
      have hb2 : book = b := hf.symm
      subst hb2
      have h1 : clampCopies (book.copies + (-1)) = book.copies - 1 := by
        unfold clampCopies; split <;> omega
      have h2 : clampCopies (book.copies - 1 + 1) = book.copies := by
        unfold clampCopies; split <;> omega
      simp only [updateFirstBook, hb, if_true, book_id_set_copies,
        copies_set_copies, h1, h2]

theorem startsWith_iff (needle hay : List Char) :
    startsWith hay needle = true ↔ ∃ rest, hay = needle ++ rest := by
  induction needle generalizing hay with
  | nil => cases hay <;> simp [startsWith]
  | cons n ns ih =>
    cases hay with
    | nil => simp [startsWith]
    | cons h hs =>
      simp only [startsWith, Bool.and_eq_true, beq_iff_eq, ih hs,
        List.cons_append, List.cons.injEq]
      constructor
      · rintro ⟨rfl, rest, rfl⟩; exact ⟨rest, rfl, rfl⟩
      · rintro ⟨rest, rfl, rfl⟩; exact ⟨rfl, rest, rfl⟩

theorem containsSub_iff (hay needle : List Char) :
    containsSub hay needle = true ↔ IsSubstring needle hay := by
  unfold IsSubstring
  induction hay with
  | nil =>
    simp only [containsSub, List.isEmpty_iff]
    constructor
    · rintro rfl; exact ⟨[], [], rfl⟩
    · rintro ⟨pre, post, h⟩
      rcases List.append_eq_nil.mp (List.append_eq_nil.mp h.symm).1 with ⟨-, h2⟩
      exact h2
  | cons h t ih =>
    simp only [containsSub, Bool.or_eq_true, startsWith_iff, ih]
    constructor
    · rintro (⟨rest, hr⟩ | ⟨pre, post, hp⟩)
      · exact ⟨[], rest, by simp [hr]⟩
      · exact ⟨h :: pre, post, by simp [hp]⟩
    · rintro ⟨pre, post, hp⟩
      cases pre with
      | nil => exact Or.inl ⟨post, by simpa using hp⟩
      | cons p ps =>
        simp only [List.cons_append, List.cons.injEq] at hp
        exact Or.inr ⟨ps, post, hp.2⟩

theorem nextIdRun_lowerBound (n k : Nat) : ∀ i ∈ (nextIdRun n k).1, n ≤ i := by
  induction k generalizing n with
  | zero => simp [nextIdRun]
  | succ k ih =>
    intro i hi
    simp only [nextIdRun, get_next_id, List.mem_cons] at hi
    rcases hi with rfl | hi
    · exact le_refl i
    · exact Nat.le_of_succ_le (ih (n + 1) i hi)

theorem nextIdRun_pairwise (n k : Nat) :
    List.Pairwise (· < ·) (nextIdRun n k).1 := by
  induction k generalizing n with
  | zero => simp [nextIdRun]
  | succ k ih =>
    simp only [nextIdRun, get_next_id]
    exact List.Pairwise.cons
      (fun i hi => Nat.lt_of_lt_of_le (Nat.lt_succ_self n)
        (nextIdRun_lowerBound (n + 1) k i hi))
      (ih (n + 1))

theorem nextIdRun_counter (n k : Nat) : (nextIdRun n k).2 = n + k := by
  induction k generalizing n with
  | zero => rfl
  | succ k ih =>
    simp only [nextIdRun, get_next_id, ih]
    omega

theorem addBooksRun_lowerBound
    (inputs : List (String × String × String × Option Int)) :
    ∀ (s : Store), ∀ i ∈ (addBooksRun s inputs).1, s.next_book_id ≤ i := by
  induction inputs with
  | nil => intro s i hi; simp [addBooksRun] at hi
  | cons x rest ih =>
    obtain ⟨t, a, g, c⟩ := x
    intro s i hi
    cases c with
    | none =>
      simp only [addBooksRun, add_book] at hi
      exact ih s i hi
    | some cv =>
      simp only [addBooksRun, add_book, get_next_id, List.mem_cons] at hi
      rcases hi with rfl | hi
      · exact le_refl _
      · have hrec := ih _ i hi
        simp only [add_book, get_next_id] at hrec
        exact Nat.le_of_succ_le hrec

theorem addBooksRun_pairwise
    (inputs : List (String × String × String × Option Int)) :
    ∀ (s : Store), List.Pairwise (· < ·) (addBooksRun s inputs).1 := by
  induction inputs with
  | nil => intro s; simp [addBooksRun]
  | cons x rest ih =>
    obtain ⟨t, a, g, c⟩ := x
    intro s
    cases c with
    | none =>
      simp only [addBooksRun, add_book]
      exact ih s
    | some cv =>
      simp only [addBooksRun, add_book, get_next_id]
      refine List.Pairwise.cons (fun i hi => ?_) (ih _)
      have hrec := addBooksRun_lowerBound rest _ i hi
      simp only [add_book, get_next_id] at hrec
      exact Nat.lt_of_succ_le hrec

/-! ### Claim theorems -/

/-- C8 counterexample: two backing-file conditions inside the claim's
"malformed (not parseable as the expected document)" scope defeat it: a
file holding the valid JSON text `[1, 2, 3]` is returned verbatim by
`json.load`, not replaced by the default structure, and a file whose
bytes are not decodable text makes `load_data` raise an uncaught
`UnicodeDecodeError`, so load does fail. -/
theorem load_data_not_total_cex :
    load_data (.parsed (.other "[1, 2, 3]")) ≠ .ok (.doc defaultData) ∧
    load_data .undecodable = .error .unicodeDecodeError :=
  ⟨fun h => JsonValue.noConfusion (Except.ok.inj h), rfl⟩

/-- C8 (amended): `load_data` returns the default structure — empty
`books`, `library_cards` and `borrowers` and all three counters equal
to 1 — surfacing no error, when the backing file is absent or when its
contents are decodable text that fails JSON parsing; but content that
parses as JSON is returned verbatim without schema validation (even when
it is not the expected document), and content whose bytes are not
decodable text raises an uncaught `UnicodeDecodeError`, so `load_data`
is not failure-free. -/
theorem load_data_behavior :
    load_data .absent = .ok (.doc defaultData) ∧
    load_data .unparsable = .ok (.doc defaultData) ∧
    defaultData =
      { books := [], library_cards := [], borrowers := [],
        next_book_id := 1, next_card_no := 1, next_borrower_id := 1 } ∧
    (∀ j : JsonValue, load_data (.parsed j) = .ok j) ∧
    load_data .undecodable = .error .unicodeDecodeError :=
  ⟨rfl, rfl, rfl, fun _ => rfl, rfl⟩

/-- C6: a `get_next_id` call returns the stored counter and increments it
by exactly one; over any number `k` of successive calls the returned
values are strictly increasing and never repeat and the counter advances
to `n + k`; consequently the book ids allocated by any sequence of
`add_book` calls from any store are strictly increasing and unique. -/
theorem next_id_monotonic (n k : Nat) (s : Store)
    (inputs : List (String × String × String × Option Int)) :
    get_next_id n = (n, n + 1) ∧
    List.Pairwise (· < ·) (nextIdRun n k).1 ∧
    (nextIdRun n k).1.Nodup ∧
    (nextIdRun n k).2 = n + k ∧
    List.Pairwise (· < ·) (addBooksRun s inputs).1 ∧
    (addBooksRun s inputs).1.Nodup :=
  ⟨rfl, nextIdRun_pairwise n k,
   (nextIdRun_pairwise n k).imp Nat.ne_of_lt,
   nextIdRun_counter n k,
   addBooksRun_pairwise inputs s,
   (addBooksRun_pairwise inputs s).imp Nat.ne_of_lt⟩

/-- C4 counterexample: `add_book` does not reject a negative copies
value: on `sampleStore` with copies input `-1` it succeeds (allocating
book id 2) and appends a record whose `copies` field is `-1`. -/
theorem add_book_accepts_negative :
    (add_book sampleStore "Junk" "Auth" "Gen" (some (-1))).1 = .ok 2 ∧
    (add_book sampleStore "Junk" "Auth" "Gen" (some (-1))).2.books.map
      Book.copies = [2, -1] :=
  ⟨rfl, rfl⟩

/-- C4 (amended): `add_book` fails with the `InvalidInput` condition,
adding no record and leaving the store unchanged, exactly when the copies
input does not parse as an integer; any parsed integer — including a
negative one — is accepted and stored unchanged in the new record. -/
theorem add_book_validation (s : Store) (t a g : String) (c : Int) :
    add_book s t a g none = (.error .valueError, s) ∧
    (add_book s t a g (some c)).1 = .ok s.next_book_id ∧
    (add_book s t a g (some c)).2.books =
      s.books ++ [{ book_id := s.next_book_id, title := t, author := a,
                    genre := g, copies := c }] :=
  ⟨rfl, rfl, rfl⟩

theorem clampCopies_eq_max (c : Int) : clampCopies c = max c 0 := by
  by_cases h : c < 0
  · simp [clampCopies, h, max_eq_right h.le]
  · simp [clampCopies, h, max_eq_left (not_lt.mp h)]

/-- C5: `update_book_copies` returns `true` exactly when the book id is
present in the books collection; in that case the found book's copies
becomes `max (copies + delta) 0` — the delta is applied and the result is
clamped at 0 — so the stored value is never below 0. -/
theorem update_copies_clamps (s : Store) (bid : Nat) (ch : Int) :
    ((update_book_copies s bid ch).1 = true ↔ ∃ b ∈ s.books, b.book_id = bid) ∧
    find_book (update_book_copies s bid ch).2.books bid =
      (find_book s.books bid).map
        (fun b => { b with copies := max (b.copies + ch) 0 }) ∧
    (∀ b, find_book (update_book_copies s bid ch).2.books bid = some b →
      0 ≤ b.copies) := by
  have hmax : ∀ b : Book,
      ({ b with copies := clampCopies (b.copies + ch) } : Book) =
      { b with copies := max (b.copies + ch) 0 } := by
    intro b; rw [clampCopies_eq_max]
  cases hf : find_book s.books bid with
  | none =>
    have hnone : ∀ b ∈ s.books, b.book_id ≠ bid := fun b hb heq =>
      absurd (by simpa using heq) (List.find?_eq_none.mp hf b hb)
    refine ⟨?_, ?_, ?_⟩
    · simp only [update_book_copies, hf]
      constructor
      · intro h; exact absurd h (by simp)
      · rintro ⟨b, hb, heq⟩; exact absurd heq (hnone b hb)
    · simp only [update_book_copies, hf, Option.map_none']
    · intro b hb
      simp only [update_book_copies, hf] at hb
      exact Option.noConfusion hb
  | some b0 =>
    have h2 : find_book (update_book_copies s bid ch).2.books bid =
        some { b0 with copies := max (b0.copies + ch) 0 } := by
      simp only [update_book_copies, hf]
      rw [find_book_updateFirstBook, hf]
      simp only [Option.map_some']
      exact congrArg some (hmax b0)
    refine ⟨?_, ?_, ?_⟩
    · simp only [update_book_copies, hf]
      constructor
      · intro _
        exact ⟨b0, List.mem_of_find?_eq_some hf,
          by simpa using List.find?_some hf⟩
      · intro _; trivial
    · rw [h2]
      rfl
    · intro b hb
      rw [h2] at hb
      cases hb
      simp only [copies_set_copies]
      exact le_max_right (b0.copies + ch) 0

/-- Witness for `update_copies_clamps`: subtracting 5 from the 2 copies
of the sample book clamps the stored value at 0. -/
theorem update_copies_clamps_witness :
    (update_book_copies sampleStore 1 (-5)).1 = true ∧
    find_book (update_book_copies sampleStore 1 (-5)).2.books 1 =
      some { book_id := 1, title := "Dune", author := "Herbert",
             genre := "SciFi", copies := 0 } ∧
    (0 : Int) ≤ (Book.copies ⟨1, "Dune", "Herbert", "SciFi", 0⟩) := by
  have h := update_copies_clamps sampleStore 1 (-5)
  have h2 : find_book (update_book_copies sampleStore 1 (-5)).2.books 1 =
      some { book_id := 1, title := "Dune", author := "Herbert",
             genre := "SciFi", copies := 0 } := h.2.1.trans (by decide)
  exact ⟨h.1.mpr ⟨⟨1, "Dune", "Herbert", "SciFi", 2⟩, by decide, rfl⟩,
    h2, h.2.2 _ h2⟩

/-- C9: `search_books` returns exactly the books whose title, author or
genre contains the keyword as a case-insensitive substring, as a sublist
of the books collection (so in the same relative order), and returns `[]`
precisely when no book matches; being a pure function of the books list,
it leaves the store untouched. -/
theorem search_books_spec (kw : String) (books : List Book) :
    List.Sublist (search_books kw books) books ∧
    (∀ b, b ∈ search_books kw books ↔ b ∈ books ∧ MatchesKeyword kw b) ∧
    (search_books kw books = [] ↔ ∀ b ∈ books, ¬ MatchesKeyword kw b) := by
  have hmatch : ∀ b : Book, bookMatches kw b = true ↔ MatchesKeyword kw b := by
    intro b
    simp only [bookMatches, MatchesKeyword, Bool.or_eq_true, containsSub_iff,
      or_assoc]
  refine ⟨List.filter_sublist books, fun b => ?_, ?_⟩
  · rw [search_books, List.mem_filter, hmatch]
  · rw [search_books, List.filter_eq_nil_iff]
    constructor
    · intro h b hb hm
      exact h b hb ((hmatch b).mpr hm)
    · intro h b hb hm
      exact h b hb ((hmatch b).mp hm)

/-- C7: `issue_book` fails with `cardNotFound` whenever no card carries
the given number — whatever the book id, so the card check runs before
the book checks; with the card present it fails with `bookNotFound`
whenever no book carries the given id; and with card and book present it
fails with `noCopiesAvailable` whenever the found book's copies is at
most 0. -/
theorem issue_book_error_order (s : Store) (cn : Nat) (n a p : String)
    (bid : Nat) (today : Date) :
    ((∀ c ∈ s.library_cards, c.card_no ≠ cn) →
      (issue_book s cn n a p bid today).1 = .error .cardNotFound) ∧
    ((∃ c ∈ s.library_cards, c.card_no = cn) →
      (∀ b ∈ s.books, b.book_id ≠ bid) →
      (issue_book s cn n a p bid today).1 = .error .bookNotFound) ∧
    (∀ bk, (∃ c ∈ s.library_cards, c.card_no = cn) →
      find_book s.books bid = some bk → bk.copies ≤ 0 →
      (issue_book s cn n a p bid today).1 = .error .noCopiesAvailable) := by
  refine ⟨?_, ?_, ?_⟩
  · intro h
    have hc : find_card s.library_cards cn = none :=
      List.find?_eq_none.mpr (fun c hcm => by simpa using h c hcm)
    simp [issue_book, hc]
  · intro hex h
    have hsome : (find_card s.library_cards cn).isSome := by
      simp only [find_card, List.find?_isSome]
      obtain ⟨c, hc1, hc2⟩ := hex
      exact ⟨c, hc1, by simpa using hc2⟩
    obtain ⟨c, hc⟩ := Option.isSome_iff_exists.mp hsome
    have hb : find_book s.books bid = none :=
      List.find?_eq_none.mpr (fun b hbm => by simpa using h b hbm)
    simp [issue_book, hc, hb]
  · intro bk hex hfb hcp
    have hsome : (find_card s.library_cards cn).isSome := by
      simp only [find_card, List.find?_isSome]
      obtain ⟨c, hc1, hc2⟩ := hex
      exact ⟨c, hc1, by simpa using hc2⟩
    obtain ⟨c, hc⟩ := Option.isSome_iff_exists.mp hsome
    simp [issue_book, hc, hfb, hcp]

/-- Witness for `issue_book_error_order`: each of the three failure modes
realised on a concrete store. -/
theorem issue_book_error_order_witness :
    (issue_book sampleStore 7 "N" "A" "P" 1 ⟨2026, 1, 5⟩).1 =
      .error .cardNotFound ∧
    (issue_book sampleStore 1 "N" "A" "P" 9 ⟨2026, 1, 5⟩).1 =
      .error .bookNotFound ∧
    (issue_book zeroCopiesStore 1 "N" "A" "P" 1 ⟨2026, 1, 5⟩).1 =
      .error .noCopiesAvailable :=
  ⟨(issue_book_error_order sampleStore 7 "N" "A" "P" 1 ⟨2026, 1, 5⟩).1
      (by decide),
   (issue_book_error_order sampleStore 1 "N" "A" "P" 9 ⟨2026, 1, 5⟩).2.1
      (by decide) (by decide),
   (issue_book_error_order zeroCopiesStore 1 "N" "A" "P" 1 ⟨2026, 1, 5⟩).2.2
      { book_id := 1, title := "Dune", author := "Herbert",
        genre := "SciFi", copies := 0 }
      (by decide) rfl (by decide)⟩

/-- C10: whenever `issue_book` fails on one of its three validation
branches (card not found, book not found, no copies available) the store
is returned unchanged: no borrower record, no copies change, and no
counter — in particular `next_borrower_id` — is consumed. -/
theorem issue_book_failure_preserves_store (s : Store) (cn : Nat)
    (n a p : String) (bid : Nat) (today : Date)
    (h : (issue_book s cn n a p bid today).1 = .error .cardNotFound ∨
         (issue_book s cn n a p bid today).1 = .error .bookNotFound ∨
         (issue_book s cn n a p bid today).1 = .error .noCopiesAvailable) :
    (issue_book s cn n a p bid today).2 = s := by
  cases hc : find_card s.library_cards cn with
  | none => simp [issue_book, hc]
  | some c =>
    cases hb : find_book s.books bid with
    | none => simp [issue_book, hc, hb]
    | some bk =>
      by_cases hcp : bk.copies ≤ 0
      · simp [issue_book, hc, hb, hcp]
      · cases hd : Date.replaceDay today (today.day + 14) with
        | none => simp [issue_book, hc, hb, hcp, hd] at h
        | some rd => simp [issue_book, hc, hb, hcp, hd] at h

/-- Witness for `issue_book_failure_preserves_store`: a failing call on a
concrete store leaves it unchanged. -/
theorem issue_book_failure_preserves_store_witness :
    (issue_book sampleStore 7 "N" "A" "P" 1 ⟨2026, 1, 5⟩).2 = sampleStore :=
  issue_book_failure_preserves_store sampleStore 7 "N" "A" "P" 1 ⟨2026, 1, 5⟩
    (Or.inl rfl)

/-- C2 (code bug): the return date is computed as
`datetime.today().replace(day=datetime.today().day + 14)`, which raises
`ValueError` whenever `day + 14` exceeds the length of the issue month.
On `sampleStore` (valid card, book in stock) issuing on 2026-01-20 fails
with the caught `ValueError` — no borrower record, but the borrower-id
counter already consumed — instead of succeeding with due date
2026-02-03; issuing on 2026-01-05 succeeds with due date 2026-01-19,
i.e. the "+ 14 days" arithmetic only works inside a single month. -/
theorem issue_book_return_date_bug :
    (issue_book sampleStore 1 "Bob" "Elm" "555" 1 ⟨2026, 1, 20⟩).1 =
      .error .valueError ∧
    (issue_book sampleStore 1 "Bob" "Elm" "555" 1 ⟨2026, 1, 20⟩).2.borrowers
      = [] ∧
    (issue_book sampleStore 1 "Bob" "Elm" "555" 1 ⟨2026, 1, 20⟩).2.next_borrower_id
      = 2 ∧
    (issue_book sampleStore 1 "Bob" "Elm" "555" 1 ⟨2026, 1, 5⟩).1 =
      .ok (1, ⟨2026, 1, 19⟩) :=
  ⟨rfl, rfl, rfl, rfl⟩

theorem find?_append_singleton_fresh {l : List Borrower} {bi : Nat}
    (h : ∀ br ∈ l, br.borrower_id ≠ bi) (nb : Borrower)
    (hnb : nb.borrower_id = bi) :
    (l ++ [nb]).find? (fun br => br.borrower_id == bi) = some nb := by
  rw [List.find?_append,
    List.find?_eq_none.mpr (fun br hbr => by simpa using h br hbr)]
  simp [hnb]

theorem filter_append_singleton_fresh {l : List Borrower} {bi : Nat}
    (h : ∀ br ∈ l, br.borrower_id ≠ bi) (nb : Borrower)
    (hnb : nb.borrower_id = bi) :
    (l ++ [nb]).filter (fun br => br.borrower_id != bi) = l := by
  rw [List.filter_append,
    List.filter_eq_self.mpr (fun br hbr => by simpa using h br hbr)]
  simp [hnb]

/-- C1 counterexample: on `collidingStore` — where a borrower record with
id 1 for book 2 already exists while `next_borrower_id` is still 1 —
`issue_book` of book 1 succeeds allocating borrower id 1, yet the
immediate `return_book` with that id does not restore the books or the
borrowers collections: it finds the pre-existing record first, increments
book 2 instead of book 1, and deletes both records. -/
theorem issue_return_roundtrip_cex :
    (issue_book collidingStore 1 "Bob" "Elm" "555" 1 ⟨2026, 1, 5⟩).1 =
      .ok (1, ⟨2026, 1, 19⟩) ∧
    ¬ ((return_book
          (issue_book collidingStore 1 "Bob" "Elm" "555" 1 ⟨2026, 1, 5⟩).2
          1).2.books = collidingStore.books ∧
       (return_book
          (issue_book collidingStore 1 "Bob" "Elm" "555" 1 ⟨2026, 1, 5⟩).2
          1).2.borrowers = collidingStore.borrowers) :=
  ⟨rfl, by decide⟩

/-- C1 (amended): when `issue_book` succeeds (card present, book present
with copies > 0, and the 14-day date computation succeeds) and no
existing borrower record already carries the id `next_borrower_id` that
the call allocates — automatic for stores satisfying the borrower-id
uniqueness invariant — an immediate `return_book` with the allocated id
restores the books collection (hence that book's copies) and the
borrowers collection exactly. -/
theorem issue_return_roundtrip (s : Store) (cn : Nat) (n a p : String)
    (bid : Nat) (today : Date) (book : Book) (rd : Date)
    (hcard : (find_card s.library_cards cn).isSome)
    (hbook : find_book s.books bid = some book)
    (hcopies : 0 < book.copies)
    (hdate : Date.replaceDay today (today.day + 14) = some rd)
    (hfresh : ∀ br ∈ s.borrowers, br.borrower_id ≠ s.next_borrower_id) :
    (issue_book s cn n a p bid today).1 = .ok (s.next_borrower_id, rd) ∧
    (return_book (issue_book s cn n a p bid today).2
      s.next_borrower_id).2.books = s.books ∧
    (return_book (issue_book s cn n a p bid today).2
      s.next_borrower_id).2.borrowers = s.borrowers := by
  obtain ⟨c, hc⟩ := Option.isSome_iff_exists.mp hcard
  have hnc : ¬ book.copies ≤ 0 := not_le.mpr hcopies
  have hone : (1 : Int) ≤ book.copies := hcopies
  have hib : issue_book s cn n a p bid today =
      (.ok (s.next_borrower_id, rd),
       { books := updateFirstBook s.books bid (-1),
         library_cards := s.library_cards,
         borrowers := s.borrowers ++
           [{ borrower_id := s.next_borrower_id, card_no := cn, name := n,
              address := a, phone := p, book_id := bid,
              book_title := book.title, issued_date := today,
              return_date := rd }],
         next_book_id := s.next_book_id,
         next_card_no := s.next_card_no,
         next_borrower_id := s.next_borrower_id + 1 }) := by
    simp only [issue_book, hc, hbook, if_neg hnc, hdate, get_next_id,
      update_book_copies]
  have hfind := find?_append_singleton_fresh hfresh
    { borrower_id := s.next_borrower_id, card_no := cn, name := n,
      address := a, phone := p, book_id := bid, book_title := book.title,
      issued_date := today, return_date := rd } rfl
  have hfm : find_book (updateFirstBook s.books bid (-1)) bid =
      some { book with copies := clampCopies (book.copies + (-1)) } := by
    rw [find_book_updateFirstBook, hbook]; rfl
  have hfilter := filter_append_singleton_fresh hfresh
    { borrower_id := s.next_borrower_id, card_no := cn, name := n,
      address := a, phone := p, book_id := bid, book_title := book.title,
      issued_date := today, return_date := rd } rfl
  have hround := updateFirstBook_roundtrip hbook hone
  refine ⟨by rw [hib], ?_, ?_⟩
  · rw [hib]
    simp only [return_book, hfind, update_book_copies, hfm, hround]
  · rw [hib]
    simp only [return_book, hfind, update_book_copies, hfm, hfilter]

/-- Witness for `issue_return_roundtrip` on `sampleStore`. -/
theorem issue_return_roundtrip_witness :
    (issue_book sampleStore 1 "Bob" "Elm" "555" 1 ⟨2026, 1, 5⟩).1 =
      .ok (sampleStore.next_borrower_id, ⟨2026, 1, 19⟩) ∧
    (return_book (issue_book sampleStore 1 "Bob" "Elm" "555" 1 ⟨2026, 1, 5⟩).2
      sampleStore.next_borrower_id).2.books = sampleStore.books ∧
    (return_book (issue_book sampleStore 1 "Bob" "Elm" "555" 1 ⟨2026, 1, 5⟩).2
      sampleStore.next_borrower_id).2.borrowers = sampleStore.borrowers :=
  issue_return_roundtrip sampleStore 1 "Bob" "Elm" "555" 1 ⟨2026, 1, 5⟩
    { book_id := 1, title := "Dune", author := "Herbert", genre := "SciFi",
      copies := 2 }
    ⟨2026, 1, 19⟩ rfl rfl (by decide) rfl (by decide)

/-- C3 counterexample: the copies-nonnegativity invariant fails over the
public operations as they stand, because `add_book` accepts a negative
copies input: a single `add_book` with copies `-1` from the empty default
store reaches a state containing a book with negative copies. -/
theorem copies_invariant_cex :
    ¬ (∀ b ∈ (runOps [.addBook "T" "A" "G" (some (-1))]).books,
        0 ≤ b.copies) := by
  decide

theorem applyOp_books_nonneg {s : Store} {op : Op} (hgood : goodOp op = true)
    (h : ∀ b ∈ s.books, 0 ≤ b.copies) :
    ∀ b ∈ (applyOp s op).books, 0 ≤ b.copies := by
  cases op with
  | addBook t a g c =>
    cases c with
    | none => simpa [applyOp, add_book] using h
    | some cv =>
      have hcv : (0 : Int) ≤ cv := by simpa [goodOp] using hgood
      intro b hb
      simp only [applyOp, add_book, get_next_id, List.mem_append,
        List.mem_singleton] at hb
      rcases hb with hb | rfl
      · exact h b hb
      · exact hcv
  | updateCopies bid ch =>
    cases hf : find_book s.books bid with
    | none => simpa [applyOp, update_book_copies, hf] using h
    | some bk =>
      intro b hb
      simp only [applyOp, update_book_copies, hf] at hb
      exact updateFirstBook_nonneg bid ch h b hb
  | issueCard nm br sub d =>
    cases sub with
    | none => simpa [applyOp, issue_card] using h
    | some sv => simpa [applyOp, issue_card, get_next_id] using h
  | issueBook cn nm ad ph bid d =>
    cases hc : find_card s.library_cards cn with
    | none => simpa [applyOp, issue_book, hc] using h
    | some c =>
      cases hb : find_book s.books bid with
      | none => simpa [applyOp, issue_book, hc, hb] using h
      | some bk =>
        by_cases hcp : bk.copies ≤ 0
        · simpa [applyOp, issue_book, hc, hb, hcp] using h
        · cases hd : Date.replaceDay d (d.day + 14) with
          | none => simpa [applyOp, issue_book, hc, hb, hcp, hd] using h
          | some rd =>
            intro b hbm
            simp only [applyOp, issue_book, hc, hb, hcp, hd, get_next_id,
              update_book_copies, if_neg] at hbm
            exact updateFirstBook_nonneg bid (-1) h b hbm
  | returnBook brid =>
    cases hf : s.borrowers.find? (fun br => br.borrower_id == brid) with
    | none => simpa [applyOp, return_book, hf] using h
    | some br =>
      cases hfb : find_book s.books br.book_id with
      | none =>
        intro b hbm
        simp only [applyOp, return_book, hf, update_book_copies, hfb] at hbm
        exact h b hbm
      | some bk =>
        intro b hbm
        simp only [applyOp, return_book, hf, update_book_copies, hfb] at hbm
        exact updateFirstBook_nonneg br.book_id 1 h b hbm

/-- C3 (amended): along every sequence of the public operations from the
empty default store in which each `add_book` call's copies input, when it
parses, is non-negative, every book record's copies stays at least 0
(the clamp protects `update_book_copies`, `issue_book` and `return_book`
unconditionally; only `add_book` can inject a negative value). -/
theorem copies_invariant (ops : List Op)
    (hgood : ∀ op ∈ ops, goodOp op = true) :
    ∀ b ∈ (runOps ops).books, 0 ≤ b.copies := by
  suffices hgen : ∀ (l : List Op) (s : Store), (∀ op ∈ l, goodOp op = true) →
      (∀ b ∈ s.books, 0 ≤ b.copies) →
      ∀ b ∈ (l.foldl applyOp s).books, 0 ≤ b.copies by
    exact hgen ops defaultData hgood (by simp [defaultData])
  intro l
  induction l with
  | nil => intro s _ h; simpa using h
  | cons op rest ih =>
    intro s hg h
    simp only [List.foldl_cons]
    exact ih (applyOp s op)
      (fun o ho => hg o (List.mem_cons_of_mem _ ho))
      (applyOp_books_nonneg (hg op (List.mem_cons_self op rest)) h)

/-- Witness for `copies_invariant`: a concrete operation sequence with
non-negative `add_book` inputs keeps all copies non-negative. -/
theorem copies_invariant_witness :
    (∀ op ∈ ([.addBook "Dune" "Herbert" "SciFi" (some 2),
              .updateCopies 1 (-5), .returnBook 3] : List Op),
      goodOp op = true) ∧
    ∀ b ∈ (runOps [.addBook "Dune" "Herbert" "SciFi" (some 2),
                   .updateCopies 1 (-5), .returnBook 3]).books,
      0 ≤ b.copies :=
  ⟨by decide, copies_invariant _ (by decide)⟩

end LibrarySystem
